import Mathlib

/-!
Shallow embedding of the classify→decode→load pipeline of
`hot_ret_parser.py` (functions `extract_field`, `identify_table`,
`parse_line`, `process_line`, `normalize_base_name`, the result-collection
loop of `process_file`, and the transactional load), together with proofs
of the specification claims about it.

Modelling conventions:
* A text line is a `List Char`; Python slicing `line[a:b]` (clamping, and a
  negative end index counting from the end of the string) is `pySlice`;
  `str.strip()` is `pyStrip`.
* Database metadata values coerced by `pd.to_numeric(..., errors='coerce')`
  are modelled as `Option Int` (`none` is the null produced for missing or
  non-numeric values).
* `fetch_metadata_for_table` is an oracle `String → List MetaRow`; the
  function returns an empty frame both for an empty result set and on a
  query exception, so `[]` models both.  `PLState.fetches` is a ghost log
  recording each call of the oracle, used to reason about caching.
* The bulk-insert step is an oracle `String → List Record → Option String`
  returning `some errorMessage` when the insert for that table raises.
  Transaction semantics (rollback discards every insert of the
  transaction) are encoded in `loadBatches`.
* The thread pool of `process_file` completes futures in arbitrary order;
  the model folds over the lines sequentially.  Every property proved here
  is insensitive to that order (bucket emptiness, key sets, per-line
  outcomes, fetch multiplicity).
* File input/output around `process_file` (opening the file, writing the
  diagnostic files) is modelled by the `FileResult` fields; the model
  covers runs in which the file itself is readable.
-/

/-- A text line, as a sequence of characters. -/
abbrev Line := List Char

/-- Characters stripped by Python `str.strip()`. -/
def isPySpace (c : Char) : Bool :=
  c = ' ' || c = '\t' || c = '\n' || c = '\x0d' || c = '\x0b' || c = '\x0c'

/-- Remove leading and trailing whitespace, as Python `str.strip()`. -/
def pyStrip (l : Line) : Line :=
  ((l.dropWhile isPySpace).reverse.dropWhile isPySpace).reverse

/-- Python slice `line[s:e]` for a non-negative start index `s`:
the end index is clamped to the length, and a negative end index counts
from the end of the string. -/
def pySlice (line : Line) (s : Nat) (e : Int) : Line :=
  let n := line.length
  let eNat : Nat := if e < 0 then ((n : Int) + e).toNat else min e.toNat n
  (line.take eNat).drop s

/-- `extract_field(line, start_pos, length)`: slice then strip. -/
def extract_field (line : Line) (start_pos : Nat) (length : Int) : Line :=
  pyStrip (pySlice line start_pos ((start_pos : Int) + length))

/-- One row of `source_file_info`: schema-table name and destination-table
name for one source key. -/
structure TableInfo where
  src_table : String
  parsed_data : String
deriving DecidableEq

/-- The sentinel returned by `identify_table` for an unknown key. -/
def unknownTableInfo : TableInfo :=
  { src_table := "Unknown Table", parsed_data := "Unknown Table" }

/-- The composite source key: characters `[0,3)` and `[11,13)` of the
line, each stripped. -/
def sourceKey (line : Line) : String :=
  String.mk (extract_field line 0 3 ++ extract_field line 11 2)

/-- `identify_table(line, table_map)`: look the composite key up in the
preloaded mapping, with the `"Unknown Table"` sentinel as default. -/
def identify_table (line : Line) (table_map : List (String × TableInfo)) :
    TableInfo :=
  (table_map.lookup (sourceKey line)).getD unknownTableInfo

/-- One metadata row: field name, 1-based start position, length, declared
type.  Offsets are `Option Int` after numeric coercion. -/
structure MetaRow where
  db_element_name : String
  start_pstn : Option Int
  element_lgth : Option Int
  data_type : String
deriving DecidableEq

/-- A decoded record: ordered field-name/value pairs (a Python dict in
insertion order). -/
abbrev Record := List (String × Line)

/-- Python dict assignment `record[k] = v`: replace in place, else append. -/
def recInsert : Record → String → Line → Record
  | [], k, v => [(k, v)]
  | (k', v') :: rest, k, v =>
      if k' = k then (k, v) :: rest else (k', v') :: recInsert rest k v

/-- Whether the record has a value for key `n`. -/
def recHasKey (rec : Record) (n : String) : Bool :=
  rec.any (fun p => p.1 == n)

/-- Lookup of key `n` in a record. -/
def recLookup (rec : Record) (n : String) : Option Line :=
  rec.lookup n

/-- The per-row guard of `parse_line`: both offsets non-null, and the
0-based range `[start_pstn - 1, start_pstn - 1 + element_lgth]` within the
line (`start_pos < 0 or start_pos + length > len(line)` fails the row). -/
def usableInRange (line : Line) (r : MetaRow) : Bool :=
  match r.start_pstn, r.element_lgth with
  | some sp, some lg =>
      if sp - 1 < 0 ∨ sp - 1 + lg > (line.length : Int) then false else true
  | _, _ => false

/-- The value `parse_line` extracts for a usable row. -/
def extractOf (line : Line) (r : MetaRow) : Line :=
  match r.start_pstn, r.element_lgth with
  | some sp, some lg => extract_field line (sp - 1).toNat lg
  | _, _ => []

/-- The row loop of `parse_line`, with the record accumulated so far. -/
def parseLineAux (line : Line) : List MetaRow → Record → Record
  | [], record => record
  | r :: rest, record =>
      match r.start_pstn, r.element_lgth with
      | some sp, some lg =>
          if sp - 1 < 0 ∨ sp - 1 + lg > (line.length : Int) then
            parseLineAux line rest record
          else
            parseLineAux line rest
              (recInsert record r.db_element_name
                (extract_field line (sp - 1).toNat lg))
      | _, _ => parseLineAux line rest record

/-- `parse_line(line, metadata)`: decode every usable in-range column into
a record. -/
def parse_line (line : Line) (metadata : List MetaRow) : Record :=
  parseLineAux line metadata []

/-- Index of the last `'.'` of the list, when one exists. -/
def lastDotIdx : List Char → Option Nat
  | [] => none
  | c :: rest =>
      match lastDotIdx rest with
      | some i => some (i + 1)
      | none => if c = '.' then some 0 else none

/-- `normalize_base_name`: `os.path.splitext` root.  The extension starts
at the last dot, provided some earlier character of the name is not a dot
(so a leading-dots-only head keeps the name whole). -/
def splitextRoot (s : List Char) : List Char :=
  match lastDotIdx s with
  | none => s
  | some i =>
      if 0 < i ∧ (s.take i).any (fun c => c ≠ '.') then s.take i else s

/-- Strip `p` from the front of `b` when it is a leading segment. -/
def stripLead (p : List Char) (b : List Char) : List Char :=
  if p.isPrefixOf b then b.drop p.length else b

/-- `normalize_base_name(file_name)`: drop the extension, then strip
`NO_MATCHING_METADATA_` and then `FAILED_INSERT_`, each at most once. -/
def normalize_base_name (file_name : String) : String :=
  let base := splitextRoot file_name.data
  let base := stripLead "NO_MATCHING_METADATA_".data base
  let base := stripLead "FAILED_INSERT_".data base
  String.mk base

/-- Shared mutable state of the decode phase: the per-file metadata cache
(a dict from schema-table name to its metadata), plus a ghost log of every
call of `fetch_metadata_for_table`. -/
structure PLState where
  cache : List (String × List MetaRow)
  fetches : List String
deriving DecidableEq

/-- Python dict assignment on the cache. -/
def cacheSet : List (String × List MetaRow) → String → List MetaRow →
    List (String × List MetaRow)
  | [], t, md => [(t, md)]
  | (t', md') :: rest, t, md =>
      if t' = t then (t, md) :: rest else (t', md') :: cacheSet rest t md

/-- The triple returned by `process_line`:
`(actual_data_table, parsed_record, original_line)`. -/
abbrev LineTriple := Option String × Option Record × Option Line

/-- `process_line(line, table_map, metadata_cache, instance_id, engine)`:
classify the line, obtain metadata from the cache or by fetching (caching
only a non-empty result), decode, and stamp the instance identifier.
Returns the result triple together with the updated shared state. -/
def process_line (fetch : String → List MetaRow)
    (table_map : List (String × TableInfo)) (instance_id : String)
    (line : Line) (st : PLState) : LineTriple × PLState :=
  let ti := identify_table line table_map
  if ti.src_table = "Unknown Table" ∨ ti.parsed_data = "Unknown Table" then
    ((none, none, some line), st)
  else
    match st.cache.lookup ti.src_table with
    | some md =>
        ((some ti.parsed_data,
          some (recInsert (parse_line line md) "instance_id" instance_id.data),
          none), st)
    | none =>
        let md := fetch ti.src_table
        let st' : PLState := ⟨st.cache, st.fetches ++ [ti.src_table]⟩
        if md = [] then
          ((none, none, some line), st')
        else
          ((some ti.parsed_data,
            some (recInsert (parse_line line md) "instance_id"
              instance_id.data),
            none), ⟨cacheSet st'.cache ti.src_table md, st'.fetches⟩)

/-- The metadata `process_line` ends up decoding with, when any is
available: the cached sequence, else a non-empty fetch result. -/
def metadataFor (fetch : String → List MetaRow) (st : PLState)
    (t : String) : Option (List MetaRow) :=
  match st.cache.lookup t with
  | some md => some md
  | none => if fetch t = [] then none else some (fetch t)

/-- The two buckets the collection loop of `process_file` fills:
`parsed_data_per_table` and `not_inserted_records`. -/
structure Buckets where
  tables : List (String × List Record)
  notInserted : List Line
deriving DecidableEq

def emptyBuckets : Buckets := ⟨[], []⟩

/-- `parsed_data_per_table.setdefault(t, []).append(r)`. -/
def tablesAdd : List (String × List Record) → String → Record →
    List (String × List Record)
  | [], t, r => [(t, [r])]
  | (t', rs) :: rest, t, r =>
      if t' = t then (t', rs ++ [r]) :: rest
      else (t', rs) :: tablesAdd rest t r

/-- Python truthiness of the optional table name (`None` and `""` falsy). -/
def truthyS : Option String → Bool
  | none => false
  | some s => s ≠ ""

/-- Python truthiness of the optional record (`None` and `{}` falsy). -/
def truthyR : Option Record → Bool
  | none => false
  | some r => r ≠ []

/-- Python truthiness of the optional original line. -/
def truthyL : Option Line → Bool
  | none => false
  | some l => l ≠ []

/-- One iteration of the `as_completed` loop of `process_file`: the entry
pairs the submitted line with its outcome, `Except.error` standing for a
`future.result()` that raises.  An exception routes the original line to
`not_inserted_records`; a decoded `(table, record)` is appended to the
table's batch; a returned original line is appended to
`not_inserted_records`. -/
def collectStep (b : Buckets) (e : Line × Except String LineTriple) :
    Buckets :=
  match e.2 with
  | Except.error _ => ⟨b.tables, b.notInserted ++ [e.1]⟩
  | Except.ok (t?, r?, o?) =>
      if truthyS t? && truthyR r? then
        ⟨tablesAdd b.tables (t?.getD "") (r?.getD []), b.notInserted⟩
      else if truthyL o? then
        ⟨b.tables, b.notInserted ++ [o?.getD []]⟩
      else b

/-- The whole collection loop over a list of (line, outcome) entries. -/
def collectResults (es : List (Line × Except String LineTriple)) : Buckets :=
  es.foldl collectStep emptyBuckets

/-- The decode phase of `process_file` over the lines of the file,
threading the shared cache state (one completion order of the pool). -/
def decodeStep (fetch : String → List MetaRow)
    (table_map : List (String × TableInfo)) (instance_id : String)
    (acc : Buckets × PLState) (line : Line) : Buckets × PLState :=
  let r := process_line fetch table_map instance_id line acc.2
  (collectStep acc.1 (line, Except.ok r.1), r.2)

def decodePhase (fetch : String → List MetaRow)
    (table_map : List (String × TableInfo)) (instance_id : String)
    (lines : List Line) : Buckets × PLState :=
  lines.foldl (decodeStep fetch table_map instance_id) (emptyBuckets, ⟨[], []⟩)

/-- First insert error raised while walking the per-table batches in
order, when one occurs (the loop over `parsed_data_per_table.items()`). -/
def loadGo (insertErr : String → List Record → Option String) :
    List (String × List Record) → Option String
  | [] => none
  | b :: rest =>
      match insertErr b.1 b.2 with
      | some e => some e
      | none => loadGo insertErr rest

/-- The transaction of `process_file`: insert every batch; on the first
error the transaction is rolled back, so nothing persists and the error is
recorded as `(None, str(e))`; otherwise everything commits. -/
def loadBatches (insertErr : String → List Record → Option String)
    (bs : List (String × List Record)) :
    List (String × Record) × List (Option String × String) :=
  match loadGo insertErr bs with
  | some e => ([], [(none, e)])
  | none =>
      (bs.foldr (fun b acc => b.2.map (fun r => (b.1, r)) ++ acc) [], [])

/-- Observable outcome of `process_file` on one file: rows committed to
the store, whether a transaction was opened, the two error lists, and the
contents of the two diagnostic files (`none` when the file is not
written). -/
structure FileResult where
  committed : List (String × Record)
  txOpened : Bool
  failed_records : List (Option String × String)
  not_inserted_records : List Line
  diagNotInserted : Option (List Line)
  diagFailedInsert : Option (List String)
deriving DecidableEq

/-- `process_file(file_path, engine, table_map)` on a readable file:
decode all lines; if any line is un-decodable, raise — the outer handler
records the error, writes the `NO_MATCHING_METADATA_` diagnostic (the
un-decodable lines) and the `FAILED_INSERT_` diagnostic, and no
transaction runs.  Otherwise open one transaction and load every batch;
an insert error is caught inside `process_file` (rollback plus a
`failed_records` entry) and the outer handler is not reached, so no
diagnostic file is written on that path. -/
def processFile (fetch : String → List MetaRow)
    (table_map : List (String × TableInfo))
    (insertErr : String → List Record → Option String)
    (file_name : String) (lines : List Line) : FileResult :=
  let instance_id := normalize_base_name file_name
  let b := (decodePhase fetch table_map instance_id lines).1
  if b.notInserted = [] then
    let lr := loadBatches insertErr b.tables
    { committed := lr.1, txOpened := true, failed_records := lr.2,
      not_inserted_records := [], diagNotInserted := none,
      diagFailedInsert := none }
  else
    let failed : List (Option String × String) :=
      [(none, "Metadata mismatch or parsing errors detected")]
    { committed := [], txOpened := false, failed_records := failed,
      not_inserted_records := b.notInserted,
      diagNotInserted := some b.notInserted,
      diagFailedInsert :=
        some (failed.map (fun fr => "ERROR - Bulk insert failed: " ++ fr.2)) }

/-! Concrete scenario data used by witnesses and counterexamples. -/

/-- The scenario line of the spec. -/
def abcLine : Line := "ABC01    12345".data

/-- Registry with the key the spec scenario names. -/
def abcMapSpec : List (String × TableInfo) :=
  [("ABC01", ⟨"ABC_META", "abc_data"⟩)]

/-- Registry keyed by the composite key the code derives from `abcLine`. -/
def abcMapCode : List (String × TableInfo) :=
  [("ABC34", ⟨"ABC_META", "abc_data"⟩)]

/-- Scenario metadata: `code` at position 1 length 3, `amt` at position 10
length 5. -/
def abcFetch : String → List MetaRow := fun t =>
  if t = "ABC_META" then
    [⟨"code", some 1, some 3, "CHAR"⟩, ⟨"amt", some 10, some 5, "CHAR"⟩]
  else []

/-- A line whose composite key is `"AAABB"`. -/
def aaLine : Line := "AAAxxxxxxxxBB".data

/-- A second line, with composite key `"CCCDD"`. -/
def ccLine : Line := "CCCxxxxxxxxDD".data

def twoTableMap : List (String × TableInfo) :=
  [("AAABB", ⟨"A_META", "a_data"⟩), ("CCCDD", ⟨"C_META", "c_data"⟩)]

/-- A fetch oracle returning empty metadata for every table. -/
def emptyFetch : String → List MetaRow := fun _ => []

/-- One-column metadata for both schema tables of `twoTableMap`. -/
def twoTableFetch : String → List MetaRow := fun t =>
  if t = "A_META" || t = "C_META" then [⟨"f1", some 1, some 2, "CHAR"⟩]
  else []

/-- An insert oracle that never raises. -/
def insOk : String → List Record → Option String := fun _ _ => none

/-- An insert oracle raising for table `c_data` only. -/
def insFailC : String → List Record → Option String := fun t _ =>
  if t = "c_data" then some "boom" else none

/-- An insert oracle raising for every table. -/
def insBoom : String → List Record → Option String := fun _ _ => some "boom"

example : extract_field "ABC01    12345".data 0 3 = "ABC".data := by decide
example : sourceKey "ABC01    12345".data = "ABC34" := by decide
example : sourceKey "Z".data = "Z" := by decide
example : normalize_base_name "X.txt" = "X" := by decide
example : normalize_base_name "FAILED_INSERT_NO_MATCHING_METADATA_X.txt"
    = "NO_MATCHING_METADATA_X" := by decide
example : normalize_base_name "NO_MATCHING_METADATA_FAILED_INSERT_X.txt"
    = "X" := by decide
example : normalize_base_name ".txt" = ".txt" := by decide
example : (process_line abcFetch abcMapSpec "run1" abcLine ⟨[], []⟩).1
    = (none, none, some abcLine) := by decide
example : (process_line abcFetch abcMapCode "run1" abcLine ⟨[], []⟩).1
    = (some "abc_data",
       some [("code", "ABC".data), ("amt", "12345".data),
             ("instance_id", "run1".data)], none) := by decide
example : (decodePhase emptyFetch twoTableMap "r" [aaLine, aaLine]).2.fetches
    = ["A_META", "A_META"] := by decide
example :
    (processFile twoTableFetch twoTableMap insFailC "f.txt" [aaLine, ccLine]).committed
    = [] := by decide
example :
    (processFile twoTableFetch twoTableMap insFailC "f.txt" [aaLine, ccLine]).diagFailedInsert
    = none := by decide
example :
    (processFile twoTableFetch twoTableMap insOk "f.txt" [aaLine, ccLine]).committed
    = [("a_data", [("f1", "AA".data), ("instance_id", "f".data)]),
       ("c_data", [("f1", "CC".data), ("instance_id", "f".data)])] := by decide

/-! Helper lemmas about records and `parse_line`. -/

theorem recHasKey_cons (p : String × Line) (rest : Record) (n : String) :
    recHasKey (p :: rest) n = ((p.1 == n) || recHasKey rest n) := by
  simp [recHasKey]

theorem recHasKey_insert (rec : Record) (k : String) (v : Line) (n : String) :
    recHasKey (recInsert rec k v) n = ((k == n) || recHasKey rec n) := by
  induction rec with
  | nil => simp [recInsert, recHasKey]
  | cons p rest ih =>
      obtain ⟨k', v'⟩ := p
      by_cases h : k' = k
      · subst h
        simp only [recInsert, if_pos rfl, recHasKey_cons]
        cases hb : (k' == n) <;> simp [recHasKey, hb]
      · simp only [recInsert, if_neg h, recHasKey_cons, ih]
        cases hb : (k' == n) <;> cases hc : (k == n) <;> simp

theorem parseLineAux_cons (line : Line) (name : String) (osp olg : Option Int)
    (dt : String) (rest : List MetaRow) (rec : Record) :
    parseLineAux line (⟨name, osp, olg, dt⟩ :: rest) rec
      = if usableInRange line ⟨name, osp, olg, dt⟩ then
          parseLineAux line rest
            (recInsert rec name (extractOf line ⟨name, osp, olg, dt⟩))
        else parseLineAux line rest rec := by
  cases osp with
  | none => rfl
  | some sp =>
      cases olg with
      | none => rfl
      | some lg =>
          by_cases hg : sp - 1 < 0 ∨ sp - 1 + lg > (line.length : Int)
          · have h1 : usableInRange line ⟨name, some sp, some lg, dt⟩ = false := by
              simp only [usableInRange]
              rw [if_pos hg]
            have h2 : parseLineAux line (⟨name, some sp, some lg, dt⟩ :: rest) rec
                = parseLineAux line rest rec := by
              simp only [parseLineAux]
              rw [if_pos hg]
            rw [h1, h2]
            simp
          · have h1 : usableInRange line ⟨name, some sp, some lg, dt⟩ = true := by
              simp only [usableInRange]
              rw [if_neg hg]
            have h2 : parseLineAux line (⟨name, some sp, some lg, dt⟩ :: rest) rec
                = parseLineAux line rest
                    (recInsert rec name (extract_field line (sp - 1).toNat lg)) := by
              simp only [parseLineAux]
              rw [if_neg hg]
            rw [h1, h2]
            simp [extractOf]

theorem recHasKey_parseLineAux (line : Line) (md : List MetaRow) :
    ∀ rec n, recHasKey (parseLineAux line md rec) n
      = (recHasKey rec n
          || md.any (fun r => r.db_element_name == n && usableInRange line r)) := by
  induction md with
  | nil => intro rec n; simp [parseLineAux]
  | cons r rest ih =>
      intro rec n
      obtain ⟨name, osp, olg, dt⟩ := r
      rw [parseLineAux_cons]
      cases hu : usableInRange line ⟨name, osp, olg, dt⟩ with
      | false =>
          rw [if_neg (by simp [hu])]
          simp [ih, List.any_cons, hu]
      | true =>
          rw [if_pos (by simp [hu])]
          have hswap : ∀ a b c : Bool, ((a || b) || c) = (b || (a || c)) := by
            decide
          simp only [ih, recHasKey_insert, List.any_cons, hu, Bool.and_true]
          exact hswap _ _ _

/-- `process_line` on a line whose key resolves and whose metadata is
available (from the cache or a non-empty fetch): the decoded record is
`parse_line` of that metadata, stamped with the instance identifier. -/
theorem process_line_known (fetch : String → List MetaRow)
    (tm : List (String × TableInfo)) (iid : String) (line : Line)
    (st : PLState) (md : List MetaRow)
    (h1 : (identify_table line tm).src_table ≠ "Unknown Table")
    (h2 : (identify_table line tm).parsed_data ≠ "Unknown Table")
    (hmd : metadataFor fetch st (identify_table line tm).src_table = some md) :
    (process_line fetch tm iid line st).1
      = (some (identify_table line tm).parsed_data,
         some (recInsert (parse_line line md) "instance_id" iid.data),
         none) := by
  have hcond : ¬((identify_table line tm).src_table = "Unknown Table"
      ∨ (identify_table line tm).parsed_data = "Unknown Table") :=
    not_or.mpr ⟨h1, h2⟩
  simp only [process_line]
  rw [if_neg hcond]
  cases hc : (st.cache.lookup (identify_table line tm).src_table) with
  | some md' =>
      simp only [metadataFor, hc] at hmd
      simp only [hc]
      injection hmd with hmd'
      rw [hmd']
  | none =>
      simp only [metadataFor, hc] at hmd
      by_cases hf : fetch (identify_table line tm).src_table = []
      · rw [if_pos hf] at hmd
        exact absurd hmd (by simp)
      · rw [if_neg hf] at hmd
        injection hmd with hmd'
        simp only [hc]
        rw [if_neg hf, hmd']

/-- Claim C3: for a line whose source key resolves and whose metadata is
available, the decoded record contains exactly the fields of the column
definitions with non-null offsets whose 0-based byte range lies within the
line, plus the synthetic `instance_id` field; columns with a null offset
or length, or whose range falls outside the line, are absent.  Decoding is
a total function of the model, so no exception is raised for any
column. -/
theorem C3_decode_exact_fields (fetch : String → List MetaRow)
    (tm : List (String × TableInfo)) (iid : String) (line : Line)
    (st : PLState) (md : List MetaRow)
    (h1 : (identify_table line tm).src_table ≠ "Unknown Table")
    (h2 : (identify_table line tm).parsed_data ≠ "Unknown Table")
    (hmd : metadataFor fetch st (identify_table line tm).src_table = some md) :
    ∃ rec, (process_line fetch tm iid line st).1
        = (some (identify_table line tm).parsed_data, some rec, none)
      ∧ ∀ n, recHasKey rec n
          = (("instance_id" == n)
              || md.any (fun r => r.db_element_name == n && usableInRange line r)) := by
  refine ⟨recInsert (parse_line line md) "instance_id" iid.data,
    process_line_known fetch tm iid line st md h1 h2 hmd, ?_⟩
  intro n
  rw [recHasKey_insert]
  unfold parse_line
  rw [recHasKey_parseLineAux]
  simp [recHasKey]

/-- Witness for C3 at the scenario data. -/
theorem C3_witness :
    ((identify_table abcLine abcMapCode).src_table ≠ "Unknown Table"
      ∧ (identify_table abcLine abcMapCode).parsed_data ≠ "Unknown Table"
      ∧ metadataFor abcFetch ⟨[], []⟩ (identify_table abcLine abcMapCode).src_table
          = some (abcFetch "ABC_META"))
    ∧ ∃ rec, (process_line abcFetch abcMapCode "run1" abcLine ⟨[], []⟩).1
        = (some (identify_table abcLine abcMapCode).parsed_data, some rec, none)
      ∧ ∀ n, recHasKey rec n
          = (("instance_id" == n)
              || (abcFetch "ABC_META").any
                  (fun r => r.db_element_name == n && usableInRange abcLine r)) :=
  ⟨⟨by decide, by decide, by decide⟩,
   C3_decode_exact_fields abcFetch abcMapCode "run1" abcLine ⟨[], []⟩
     (abcFetch "ABC_META") (by decide) (by decide) (by decide)⟩

/-- Claim C4: deriving the composite source key is total (the model's
`sourceKey` is defined for every line of any length), and whenever the key
is absent from the registry mapping, `process_line` returns no destination
table and no record, hands back the original line as not inserted, and
leaves the shared state untouched — whatever the line's content. -/
theorem C4_unresolvable_key (fetch : String → List MetaRow)
    (tm : List (String × TableInfo)) (iid : String) (line : Line)
    (st : PLState) (h : tm.lookup (sourceKey line) = none) :
    process_line fetch tm iid line st = ((none, none, some line), st) := by
  have hti : identify_table line tm = unknownTableInfo := by
    simp [identify_table, h]
  simp only [process_line, hti]
  simp [unknownTableInfo]

/-- Witness for C4: a short line whose key is absent from the registry. -/
theorem C4_witness :
    abcMapCode.lookup (sourceKey "Z".data) = none
    ∧ process_line abcFetch abcMapCode "run1" "Z".data ⟨[], []⟩
        = ((none, none, some "Z".data), ⟨[], []⟩) :=
  ⟨by decide,
   C4_unresolvable_key abcFetch abcMapCode "run1" "Z".data ⟨[], []⟩ (by decide)⟩

theorem recLookup_insert_self (rec : Record) (k : String) (v : Line) :
    recLookup (recInsert rec k v) k = some v := by
  induction rec with
  | nil => simp [recInsert, recLookup, List.lookup]
  | cons p rest ih =>
      obtain ⟨k', v'⟩ := p
      by_cases h : k' = k
      · subst h
        simp [recInsert, recLookup, List.lookup]
      · have hb : (k == k') = false := by
          simp [beq_iff_eq]
          exact fun he => h he.symm
        simp only [recInsert, if_neg h]
        simp only [recLookup, List.lookup, hb]
        exact ih

theorem recLookup_insert_ne (rec : Record) (k : String) (v : Line)
    (n : String) (h : k ≠ n) :
    recLookup (recInsert rec k v) n = recLookup rec n := by
  have hb : (n == k) = false := by
    simp [beq_iff_eq]
    exact fun he => h he.symm
  induction rec with
  | nil => simp [recInsert, recLookup, List.lookup, hb]
  | cons p rest ih =>
      obtain ⟨k', v'⟩ := p
      by_cases hk : k' = k
      · subst hk
        simp [recInsert, recLookup, List.lookup, hb]
      · simp only [recInsert, if_neg hk]
        simp only [recLookup, List.lookup] at ih ⊢
        rw [ih]

theorem parseLineAux_append (line : Line) (a b : List MetaRow) :
    ∀ rec, parseLineAux line (a ++ b) rec
      = parseLineAux line b (parseLineAux line a rec) := by
  induction a with
  | nil => intro rec; rfl
  | cons r rest ih =>
      intro rec
      obtain ⟨name, osp, olg, dt⟩ := r
      rw [List.cons_append, parseLineAux_cons, parseLineAux_cons]
      cases hu : usableInRange line ⟨name, osp, olg, dt⟩ <;> simp [hu, ih]

theorem recLookup_parseLineAux_unusable (line : Line) (n : String) :
    ∀ md : List MetaRow,
      (∀ r' ∈ md, r'.db_element_name = n → usableInRange line r' = false) →
      ∀ rec, recLookup (parseLineAux line md rec) n = recLookup rec n := by
  intro md
  induction md with
  | nil => intro _ rec; rfl
  | cons r rest ih =>
      intro hmd rec
      obtain ⟨name, osp, olg, dt⟩ := r
      rw [parseLineAux_cons]
      cases hu : usableInRange line ⟨name, osp, olg, dt⟩ with
      | false =>
          rw [if_neg (by simp [hu])]
          exact ih (fun r' hr' => hmd r' (List.mem_cons_of_mem _ hr')) rec
      | true =>
          rw [if_pos (by simp [hu])]
          have hne : name ≠ n := by
            intro he
            have := hmd ⟨name, osp, olg, dt⟩ (List.mem_cons_self _ _) he
            rw [hu] at this
            exact absurd this (by simp)
          rw [ih (fun r' hr' => hmd r' (List.mem_cons_of_mem _ hr')),
            recLookup_insert_ne _ _ _ _ hne]

/-- Claim C10: when several usable in-range column definitions share a
field name, the decoded record maps that name to the value extracted for
the last such definition in metadata order. -/
theorem C10_duplicate_name_last_wins (line : Line) (md1 md2 : List MetaRow)
    (r : MetaRow) (hr : usableInRange line r = true)
    (hafter : ∀ r' ∈ md2, r'.db_element_name = r.db_element_name →
      usableInRange line r' = false) :
    recLookup (parse_line line (md1 ++ r :: md2)) r.db_element_name
      = some (extractOf line r) := by
  obtain ⟨name, osp, olg, dt⟩ := r
  unfold parse_line
  have hsplit : md1 ++ (⟨name, osp, olg, dt⟩ : MetaRow) :: md2
      = (md1 ++ [⟨name, osp, olg, dt⟩]) ++ md2 := by simp
  rw [hsplit, parseLineAux_append, parseLineAux_append, parseLineAux_cons,
    if_pos (by simp [hr])]
  rw [recLookup_parseLineAux_unusable line _ md2 hafter]
  exact recLookup_insert_self _ _ _

/-- Witness for C10: two usable definitions named `f`; the record holds
the second one's value `"CD"`, not the first one's `"AB"`. -/
theorem C10_witness :
    (usableInRange "ABCD".data ⟨"f", some 3, some 2, "C"⟩ = true
      ∧ extractOf "ABCD".data ⟨"f", some 3, some 2, "C"⟩ = "CD".data)
    ∧ recLookup
        (parse_line "ABCD".data
          ([⟨"f", some 1, some 2, "C"⟩] ++ ⟨"f", some 3, some 2, "C"⟩ :: []))
        (MetaRow.db_element_name ⟨"f", some 3, some 2, "C"⟩)
      = some (extractOf "ABCD".data ⟨"f", some 3, some 2, "C"⟩) :=
  ⟨⟨by decide, by decide⟩,
   C10_duplicate_name_last_wins "ABCD".data [⟨"f", some 1, some 2, "C"⟩] []
     ⟨"f", some 3, some 2, "C"⟩ (by decide) (by decide)⟩

/-- Claim C9: per-line exception containment in the collection loop of
`process_file`.  Whatever outcomes surround it, an entry whose
`future.result()` raises contributes exactly an append of its original
line to the not-inserted bucket — the table batches are untouched by it,
and every other entry is folded in exactly as it would have been. -/
theorem C9_exception_containment (pre suf : List (Line × Except String LineTriple))
    (l : Line) (e : String) :
    collectResults (pre ++ (l, Except.error e) :: suf)
      = List.foldl collectStep
          ⟨(collectResults pre).tables, (collectResults pre).notInserted ++ [l]⟩
          suf := by
  unfold collectResults
  rw [List.foldl_append, List.foldl_cons]
  rfl

theorem loadGo_of_failing (ie : String → List Record → Option String) :
    ∀ bs : List (String × List Record),
      (∃ b ∈ bs, ie b.1 b.2 ≠ none) → ∃ e, loadGo ie bs = some e := by
  intro bs
  induction bs with
  | nil => intro h; exact absurd h (by simp)
  | cons b rest ih =>
      intro h
      cases hb : ie b.1 b.2 with
      | some e => exact ⟨e, by simp [loadGo, hb]⟩
      | none =>
          obtain ⟨b', hb', hne⟩ := h
          rcases List.mem_cons.mp hb' with h1 | h2
          · subst h1
            exact absurd hb hne
          · obtain ⟨e, he⟩ := ih ⟨b', h2, hne⟩
            exact ⟨e, by simp [loadGo, hb, he]⟩

theorem loadBatches_of_failing (ie : String → List Record → Option String)
    (bs : List (String × List Record))
    (h : ∃ b ∈ bs, ie b.1 b.2 ≠ none) :
    (loadBatches ie bs).1 = [] ∧ (loadBatches ie bs).2 ≠ [] := by
  obtain ⟨e, he⟩ := loadGo_of_failing ie bs h
  simp [loadBatches, he]

/-- Claim C1: the all-or-nothing gate.  Whenever the decode phase leaves
the not-inserted bucket non-empty, `process_file` raises before the load
stage: no transaction is opened and zero rows are committed to any
destination table, even for tables whose batches decoded completely. -/
theorem C1_all_or_nothing (fetch : String → List MetaRow)
    (tm : List (String × TableInfo))
    (ie : String → List Record → Option String) (fn : String)
    (lines : List Line)
    (h : (processFile fetch tm ie fn lines).not_inserted_records ≠ []) :
    (processFile fetch tm ie fn lines).txOpened = false
      ∧ (processFile fetch tm ie fn lines).committed = [] := by
  unfold processFile at h ⊢
  by_cases hb : (decodePhase fetch tm (normalize_base_name fn) lines).1.notInserted = []
  · simp [hb] at h
  · simp [hb]

/-- Witness for C1: one unresolvable line, so nothing is committed even
though the insert oracle would have succeeded. -/
theorem C1_witness :
    (processFile emptyFetch [] insOk "f.txt" ["Z".data]).not_inserted_records ≠ []
    ∧ ((processFile emptyFetch [] insOk "f.txt" ["Z".data]).txOpened = false
        ∧ (processFile emptyFetch [] insOk "f.txt" ["Z".data]).committed = []) :=
  ⟨by decide, C1_all_or_nothing emptyFetch [] insOk "f.txt" ["Z".data] (by decide)⟩

/-- Claim C2: transactional atomicity per file.  When every line decodes
and the bulk insert of any destination table raises, the transaction is
rolled back: no rows of any table of the file persist, and the failure is
recorded. -/
theorem C2_atomic_rollback (fetch : String → List MetaRow)
    (tm : List (String × TableInfo))
    (ie : String → List Record → Option String) (fn : String)
    (lines : List Line)
    (h0 : (processFile fetch tm ie fn lines).not_inserted_records = [])
    (hex : ∃ b ∈ (decodePhase fetch tm (normalize_base_name fn) lines).1.tables,
      ie b.1 b.2 ≠ none) :
    (processFile fetch tm ie fn lines).committed = []
      ∧ (processFile fetch tm ie fn lines).failed_records ≠ [] := by
  unfold processFile at h0 ⊢
  by_cases hb : (decodePhase fetch tm (normalize_base_name fn) lines).1.notInserted = []
  · have := loadBatches_of_failing ie
      (decodePhase fetch tm (normalize_base_name fn) lines).1.tables hex
    simp [hb]
    exact this
  · simp [hb] at h0

/-- Witness for C2: two tables decode fully; the insert for `c_data`
raises, and the rows already inserted for `a_data` do not persist. -/
theorem C2_witness :
    ((processFile twoTableFetch twoTableMap insFailC "f.txt"
        [aaLine, ccLine]).not_inserted_records = []
      ∧ (∃ b ∈ (decodePhase twoTableFetch twoTableMap
            (normalize_base_name "f.txt") [aaLine, ccLine]).1.tables,
          insFailC b.1 b.2 ≠ none))
    ∧ ((processFile twoTableFetch twoTableMap insFailC "f.txt"
          [aaLine, ccLine]).committed = []
        ∧ (processFile twoTableFetch twoTableMap insFailC "f.txt"
            [aaLine, ccLine]).failed_records ≠ []) :=
  ⟨⟨by decide, by decide⟩,
   C2_atomic_rollback twoTableFetch twoTableMap insFailC "f.txt"
     [aaLine, ccLine] (by decide) (by decide)⟩

/-- Counterexample to C5: the two normalizations differ — the re-run
name keeps its inner marker, so the claimed idempotence fails. -/
theorem C5_counterexample :
    normalize_base_name "FAILED_INSERT_NO_MATCHING_METADATA_X.txt"
      ≠ normalize_base_name "X.txt" := by decide

/-- Claim C5 as amended: `normalize_base_name` strips each diagnostic
marker at most once, testing `NO_MATCHING_METADATA_` before
`FAILED_INSERT_`; so `FAILED_INSERT_NO_MATCHING_METADATA_X.txt` yields
`NO_MATCHING_METADATA_X`, while nesting in the other order collapses to
`X`. -/
theorem C5_amended :
    normalize_base_name "FAILED_INSERT_NO_MATCHING_METADATA_X.txt"
        = "NO_MATCHING_METADATA_X"
      ∧ normalize_base_name "NO_MATCHING_METADATA_FAILED_INSERT_X.txt" = "X"
      ∧ normalize_base_name "X.txt" = "X" := by decide

/-- Counterexample to C6: with the registry keyed by `"ABC01"` as the
spec scenario states, the line `"ABC01    12345"` does not resolve (its
derived key is `"ABC34"`), so `process_line` classifies it
not-inserted instead of producing the claimed record. -/
theorem C6_counterexample :
    (process_line abcFetch abcMapSpec "run1" abcLine ⟨[], []⟩).1
      = (none, none, some abcLine) := by decide

/-- Claim C6 as amended: the composite key the code derives from
`"ABC01    12345"` is `"ABC34"` (characters `[0,3)` and `[11,13)`); with
the registry keyed by that value the line resolves to `abc_data` and
decodes to `{code: "ABC", amt: "12345", instance_id: "run1"}`. -/
theorem C6_amended :
    sourceKey abcLine = "ABC34"
      ∧ (process_line abcFetch abcMapCode "run1" abcLine ⟨[], []⟩).1
        = (some "abc_data",
           some [("code", "ABC".data), ("amt", "12345".data),
                 ("instance_id", "run1".data)], none) := by decide

/-- Claim C7 fails on the code: a file whose only failure is a bulk-insert
error ends failed (`failed_records` non-empty after the rollback), yet
neither diagnostic file is written — the insert exception is caught inside
`process_file` before the outer handler that writes `FAILED_INSERT_` ever
runs. -/
theorem C7_insert_failure_writes_no_diagnostic :
    (processFile twoTableFetch twoTableMap insBoom "file1.txt"
        [aaLine]).failed_records = [(none, "boom")]
      ∧ (processFile twoTableFetch twoTableMap insBoom "file1.txt"
          [aaLine]).not_inserted_records = []
      ∧ (processFile twoTableFetch twoTableMap insBoom "file1.txt"
          [aaLine]).diagFailedInsert = none
      ∧ (processFile twoTableFetch twoTableMap insBoom "file1.txt"
          [aaLine]).diagNotInserted = none := by decide

/-- Counterexample to C8: two lines resolving to the same schema table
whose fetch is empty — both are classified not inserted, but the metadata
is fetched once per line, not cached as unavailable after the first
miss. -/
theorem C8_counterexample :
    ¬ ((decodePhase emptyFetch twoTableMap "r" [aaLine, aaLine]).2.fetches.length ≤ 1)
      ∧ (decodePhase emptyFetch twoTableMap "r" [aaLine, aaLine]).1.notInserted
        = [aaLine, aaLine] := by decide

/-- Claim C8 as amended: an empty (or failed) metadata fetch is not
cached.  A line resolving to a table missing from the cache whose fetch
returns nothing is classified not inserted, the cache is left unchanged,
and exactly one more fetch of that table is logged — so each further line
resolving to it fetches again; lines for other tables are unaffected. -/
theorem C8_empty_fetch_not_cached (fetch : String → List MetaRow)
    (tm : List (String × TableInfo)) (iid : String) (line : Line)
    (st : PLState)
    (h1 : (identify_table line tm).src_table ≠ "Unknown Table")
    (h2 : (identify_table line tm).parsed_data ≠ "Unknown Table")
    (h3 : st.cache.lookup (identify_table line tm).src_table = none)
    (h4 : fetch (identify_table line tm).src_table = []) :
    process_line fetch tm iid line st
      = ((none, none, some line),
         ⟨st.cache, st.fetches ++ [(identify_table line tm).src_table]⟩) := by
  have hcond : ¬((identify_table line tm).src_table = "Unknown Table"
      ∨ (identify_table line tm).parsed_data = "Unknown Table") :=
    not_or.mpr ⟨h1, h2⟩
  simp only [process_line]
  rw [if_neg hcond]
  simp only [h3]
  rw [if_pos h4]

/-- Witness for the amended C8 at concrete data. -/
theorem C8_witness :
    ((identify_table aaLine twoTableMap).src_table ≠ "Unknown Table"
      ∧ (identify_table aaLine twoTableMap).parsed_data ≠ "Unknown Table"
      ∧ (PLState.mk [] []).cache.lookup
          (identify_table aaLine twoTableMap).src_table = none
      ∧ emptyFetch (identify_table aaLine twoTableMap).src_table = [])
    ∧ process_line emptyFetch twoTableMap "r" aaLine ⟨[], []⟩
      = ((none, none, some aaLine),
         ⟨[], [] ++ [(identify_table aaLine twoTableMap).src_table]⟩) :=
  ⟨⟨by decide, by decide, by decide, by decide⟩,
   C8_empty_fetch_not_cached emptyFetch twoTableMap "r" aaLine ⟨[], []⟩
     (by decide) (by decide) (by decide) (by decide)⟩
